import Mathlib

/-!
# Shallow embedding of the cosmo-agents migration manager and dashboard

This file embeds the migration-lifecycle logic of the repository:

* `useMigrationManager` (the unnamed source file): session creation and
  reuse (`startNewMigration`, `getOrCreateMigrationId`), file upload with
  case-insensitive deduplication (`handleCodeUpload`), partial file-status
  updates (`updateFileStatus`), cleanup of stale empty sessions
  (`cleanupEmptyMigrations`), session deletion (`deleteMigration`) and
  statistics (`getMigrationStats`);
* `Dashboard.tsx`: the client-side state and the handlers
  `handleManualEdit` and `handleResetMigration`.

The hosted relational backend is modelled as an explicit `DB` value (lists
of rows plus an id counter); each operation is a pure function from the
old state to the new state together with its returned value.  Backend
failures, which the source receives as `error` results from individual
calls, are modelled as explicit oracle parameters (`insertFails`,
`fileInsertFails`, ...): the oracle decides which calls report an error.
Wall-clock time is an explicit `now : Int` parameter (milliseconds, as in
`Date.now()`); the derived default project name is passed in as a string.
Exceptions (`catch` blocks) are not modelled: the backend client returns
errors as values, so the `catch` arms of the source are dead except for
transport-level faults outside this model.
-/

namespace Cosmo

/-- JavaScript `String.prototype.toLowerCase()` as used by the source for
case-insensitive file-name comparison (character-wise lowering). -/
def lowerStr (s : String) : String := ⟨s.data.map Char.toLower⟩

/-- `conversion_status` of a migration file (source `FileItem` union type). -/
inductive ConvStatus
  | pending
  | success
  | failed
  | deployed
deriving DecidableEq, Repr

/-- `file_type` of an uploaded artifact (source `FileItem` union type). -/
inductive FileType
  | table
  | procedure
  | trigger
  | other
deriving DecidableEq, Repr

/-- One element of the `issues` annotation array (the source uses it only
through its `id` field, in `handleDismissIssue`). -/
structure Issue where
  id : String
deriving DecidableEq, Repr

/-- A row of the `migrations` table. -/
structure MigrationRow where
  id : Nat
  userId : Nat
  projectName : String
  createdAt : Int
deriving DecidableEq, Repr

/-- A row of the `migration_files` table. -/
structure FileRow where
  id : Nat
  migrationId : Nat
  fileName : String
  filePath : String
  fileType : FileType
  originalContent : String
  conversionStatus : ConvStatus
  convertedContent : Option String
  errorMessage : Option String
  dataTypeMapping : Option (List String)
  performanceMetrics : Option String
  issues : Option (List Issue)
  deploymentTimestamp : Option Int
  updatedAt : Int
deriving DecidableEq, Repr

/-- The hosted relational store: the two tables the claims touch, plus the
backend's id allocator (fresh row ids are `nextId`, `nextId + 1`, ...). -/
structure DB where
  migrations : List MigrationRow
  files : List FileRow
  nextId : Nat
deriving DecidableEq, Repr

/-- The migration manager's in-memory React state together with the
backend: `currentMigrationId` is the `useState` cell of the hook. -/
structure MgrState where
  currentMigrationId : Option Nat
  db : DB
deriving DecidableEq, Repr

/-- The file rows of one migration session (the backend filter
`.eq('migration_id', migrationId)`, also the `migration_files(id)` join). -/
def filesOf (db : DB) (mid : Nat) : List FileRow :=
  db.files.filter (fun r => r.migrationId = mid)

/-- 24 hours in milliseconds: the session-reuse / cleanup window
`24 * 60 * 60 * 1000` of the source. -/
def msPerDay : Int := 24 * 60 * 60 * 1000

/-- Latest of two migration rows by `created_at` (ties keep the first,
matching the backend's `order by created_at desc limit 1` read as the
running fold below). -/
def moreRecent (a b : MigrationRow) : MigrationRow :=
  if b.createdAt > a.createdAt then b else a

/-- The backend query of `getOrCreateMigrationId`: the most recent
migration of user `uid` with `created_at ≥ cutoff`, `none` when there is
no such row (`.single()` with zero rows yields `data = null`, and the
source reads only `data`). -/
def recentMigration (db : DB) (uid : Nat) (cutoff : Int) : Option MigrationRow :=
  (db.migrations.filter (fun m => m.userId = uid ∧ m.createdAt ≥ cutoff)).foldl
    (fun acc m =>
      match acc with
      | none => some m
      | some b => some (moreRecent b m))
    none

/-- `startNewMigration` (source lines 27-80): requires a user, inserts one
`migrations` row and on success records its id as the current session.
`insertFails` is the oracle for the backend insert erroring; `projectName`
is the supplied or time-derived default name. -/
def startNewMigration (user : Option Nat) (now : Int) (projectName : String)
    (insertFails : Bool) (s : MgrState) : Option Nat × MgrState :=
  match user with
  | none => (none, s)
  | some uid =>
    if insertFails then
      (none, s)
    else
      (some s.db.nextId,
       { currentMigrationId := some s.db.nextId,
         db := { s.db with
                   migrations := s.db.migrations ++ [⟨s.db.nextId, uid, projectName, now⟩],
                   nextId := s.db.nextId + 1 } })

/-- `getOrCreateMigrationId` (source lines 83-112): fast path on the held
in-memory id; otherwise look up the most recent session of the last 24
hours, reuse it when it has files, delete it and fall through when it is
empty, and create a new session when none exists. -/
def getOrCreateMigrationId (user : Option Nat) (now : Int) (projectName : String)
    (insertFails : Bool) (s : MgrState) : Option Nat × MgrState :=
  match s.currentMigrationId with
  | some mid => (some mid, s)
  | none =>
    let cutoff := now - msPerDay
    let recent : Option MigrationRow :=
      match user with
      | none => none
      | some uid => recentMigration s.db uid cutoff
    match recent with
    | some m =>
      if (filesOf s.db m.id).length > 0 then
        (some m.id, { s with currentMigrationId := some m.id })
      else
        let s1 : MgrState :=
          { s with db := { s.db with
                             migrations := s.db.migrations.filter (fun m2 => ¬ m2.id = m.id) } }
        startNewMigration user now projectName insertFails s1
    | none => startNewMigration user now projectName insertFails s

/-- The ids gathered by `cleanupEmptyMigrations` (source lines 335-344):
the user's migrations with `created_at < cutoff`, filtered to those with
zero file rows, projected to their ids. -/
def staleEmptyIds (db : DB) (uid : Nat) (cutoff : Int) : List Nat :=
  ((db.migrations.filter (fun m => m.userId = uid ∧ m.createdAt < cutoff)).filter
    (fun m => (filesOf db m.id).length = 0)).map (fun m => m.id)

/-- `cleanupEmptyMigrations` (source lines 330-354): for the current user,
find migrations older than 24 hours, keep those with no files, and
bulk-delete them when there is at least one.  `queryFails` models the
select returning an error (`data` null, so the `if (emptyMigrations)`
guard skips everything); `delFails` models the ignored-error bulk delete
not taking effect.  With no user the `user_id` filter matches no row. -/
def cleanupEmptyMigrations (queryFails delFails : Bool) (user : Option Nat)
    (now : Int) (s : MgrState) : MgrState :=
  if queryFails then s
  else
    match user with
    | none => s
    | some uid =>
      let toDelete := staleEmptyIds s.db uid (now - msPerDay)
      if toDelete.length > 0 then
        if delFails then s
        else
          { s with db := { s.db with
                             migrations := s.db.migrations.filter (fun m => ¬ m.id ∈ toDelete) } }
      else s

/-- Client-side `FileItem` (source interface lines 6-18). -/
structure FileItem where
  id : String
  name : String
  path : String
  type : FileType
  content : String
  conversionStatus : ConvStatus
  convertedContent : Option String
  errorMessage : Option String
  dataTypeMapping : Option (List String)
  issues : Option (List Issue)
  performanceMetrics : Option String
deriving DecidableEq, Repr

/-- An element of the `uploadedFiles` argument of `handleCodeUpload`: the
fields the mapping at source lines 189-201 reads. -/
structure UploadedFile where
  id : String
  name : String
  type : FileType
  content : String
deriving DecidableEq, Repr

/-- The per-file mapping of `handleCodeUpload` (source lines 189-201):
status forced to `pending`, `path` set to the name, auxiliary fields
cleared (`dataTypeMapping` and `issues` to empty arrays, the rest to
`undefined`). -/
def mkFileItem (f : UploadedFile) : FileItem :=
  { id := f.id
    name := f.name
    path := f.name
    type := f.type
    content := f.content
    conversionStatus := ConvStatus.pending
    dataTypeMapping := some []
    issues := some []
    performanceMetrics := none
    convertedContent := none
    errorMessage := none }

/-- The `migration_files` row inserted for one non-duplicate file (source
lines 219-226); columns the insert does not set take their backend
defaults (`updatedAt` stamped `now`, the rest null). -/
def mkRow (mid : Nat) (now : Int) (nid : Nat) (f : FileItem) : FileRow :=
  { id := nid
    migrationId := mid
    fileName := f.name
    filePath := f.path
    fileType := f.type
    originalContent := f.content
    conversionStatus := ConvStatus.pending
    convertedContent := none
    errorMessage := none
    dataTypeMapping := none
    performanceMetrics := none
    issues := none
    deploymentTimestamp := none
    updatedAt := now }

/-- The insertion loop of `handleCodeUpload` (source lines 213-233):
skip a file whose lowercased name is already known, otherwise attempt the
insert; on success append the row and remember the lowercased name, on
failure (`fileInsertFails` oracle, per file name) only log and continue.
Returns the appended rows in order together with the next fresh row id. -/
def insertRows (fileInsertFails : String → Bool) (mid : Nat) (now : Int) :
    List FileItem → List String → Nat → List FileRow × Nat
  | [], _, nid => ([], nid)
  | f :: rest, names, nid =>
    if lowerStr f.name ∈ names then
      insertRows fileInsertFails mid now rest names nid
    else if fileInsertFails f.name then
      insertRows fileInsertFails mid now rest names nid
    else
      let out := insertRows fileInsertFails mid now rest (names ++ [lowerStr f.name]) (nid + 1)
      (mkRow mid now nid f :: out.1, out.2)

/-- The user-visible outcome of `handleCodeUpload`: which toast fires. -/
inductive UploadOutcome
  | authError
  | noMigrationError
  | uploadedToast (count : Nat)
deriving DecidableEq, Repr

/-- Return value and post-state of `handleCodeUpload`. -/
structure UploadResult where
  files : List FileItem
  outcome : UploadOutcome
  state : MgrState
deriving DecidableEq, Repr

/-- `handleCodeUpload` (source lines 168-250): require a user, obtain a
session via `getOrCreateMigrationId`, map the batch to pending
`FileItem`s, read the session's existing file names, and run the
dedup-and-insert loop; always finish with the success toast and the full
mapped list. -/
def handleCodeUpload (user : Option Nat) (now : Int) (projectName : String)
    (sessionInsertFails : Bool) (fileInsertFails : String → Bool)
    (uploadedFiles : List UploadedFile) (s : MgrState) : UploadResult :=
  match user with
  | none => ⟨[], UploadOutcome.authError, s⟩
  | some _ =>
    let res := getOrCreateMigrationId user now projectName sessionInsertFails s
    match res.1 with
    | none => ⟨[], UploadOutcome.noMigrationError, res.2⟩
    | some mid =>
      let convertedFiles := uploadedFiles.map mkFileItem
      let existingFileNames := (filesOf res.2.db mid).map (fun r => lowerStr r.fileName)
      let out := insertRows fileInsertFails mid now convertedFiles existingFileNames
        res.2.db.nextId
      ⟨convertedFiles, UploadOutcome.uploadedToast convertedFiles.length,
       { res.2 with db := { res.2.db with
                              files := res.2.db.files ++ out.1,
                              nextId := out.2 } }⟩

/-- The `updateData` object of `updateFileStatus` (source lines 263-286):
`conversion_status` and `updated_at` always present, each optional column
present exactly when set. -/
structure UpdatePayload where
  conversion_status : ConvStatus
  updated_at : Int
  converted_content : Option String
  error_message : Option String
  data_type_mapping : Option (List String)
  performance_metrics : Option String
  issues : Option (List Issue)
deriving DecidableEq, Repr

/-- Builds `updateData` as the source does: start from status and
timestamp, then add each optional column only when the corresponding
argument was provided (`!== undefined`). -/
def buildUpdateData (status : ConvStatus) (now : Int)
    (convertedContent errorMessage : Option String)
    (dataTypeMapping : Option (List String)) (performanceMetrics : Option String)
    (issues : Option (List Issue)) : UpdatePayload :=
  let u0 : UpdatePayload :=
    { conversion_status := status, updated_at := now, converted_content := none,
      error_message := none, data_type_mapping := none, performance_metrics := none,
      issues := none }
  let u1 := match convertedContent with
    | some v => { u0 with converted_content := some v }
    | none => u0
  let u2 := match errorMessage with
    | some v => { u1 with error_message := some v }
    | none => u1
  let u3 := match dataTypeMapping with
    | some v => { u2 with data_type_mapping := some v }
    | none => u2
  let u4 := match performanceMetrics with
    | some v => { u3 with performance_metrics := some v }
    | none => u3
  match issues with
  | some v => { u4 with issues := some v }
  | none => u4

/-- The backend `.update(updateData)` applied to one row: a column named
in the payload is overwritten, every other column keeps its stored
value. -/
def applyUpdate (p : UpdatePayload) (r : FileRow) : FileRow :=
  { r with
    conversionStatus := p.conversion_status
    updatedAt := p.updated_at
    convertedContent := match p.converted_content with
      | some v => some v
      | none => r.convertedContent
    errorMessage := match p.error_message with
      | some v => some v
      | none => r.errorMessage
    dataTypeMapping := match p.data_type_mapping with
      | some v => some v
      | none => r.dataTypeMapping
    performanceMetrics := match p.performance_metrics with
      | some v => some v
      | none => r.performanceMetrics
    issues := match p.issues with
      | some v => some v
      | none => r.issues }

/-- `updateFileStatus` (source lines 253-303): build the partial payload,
apply it to the rows matching `fileId`, return a success boolean
(`updateFails` is the oracle for the backend update erroring, in which
case nothing changes and `false` is returned). -/
def updateFileStatus (updateFails : Bool) (fileId : Nat) (status : ConvStatus)
    (now : Int) (convertedContent errorMessage : Option String)
    (dataTypeMapping : Option (List String)) (performanceMetrics : Option String)
    (issues : Option (List Issue)) (db : DB) : Bool × DB :=
  let updateData := buildUpdateData status now convertedContent errorMessage
    dataTypeMapping performanceMetrics issues
  if updateFails then (false, db)
  else
    (true, { db with files := db.files.map (fun r =>
      if r.id = fileId then applyUpdate updateData r else r) })

/-- `deleteMigration` (source lines 445-484): delete the session's file
rows, then the session row; a failed step (its oracle) returns `false`
without proceeding; on full success clear the in-memory pointer exactly
when it holds the deleted id, and return `true`. -/
def deleteMigration (filesDelFails migDelFails : Bool) (migrationId : Nat)
    (s : MgrState) : Bool × MgrState :=
  if filesDelFails then (false, s)
  else
    let s1 : MgrState := { s with db := { s.db with
      files := s.db.files.filter (fun r => ¬ r.migrationId = migrationId) } }
    if migDelFails then (false, s1)
    else
      let s2 : MgrState := { s1 with db := { s1.db with
        migrations := s1.db.migrations.filter (fun m => ¬ m.id = migrationId) } }
      if s2.currentMigrationId = some migrationId then
        (true, { s2 with currentMigrationId := none })
      else (true, s2)

/-- The fixed-shape summary of `getMigrationStats`. -/
structure MigrationStats where
  total : Nat
  success : Nat
  failed : Nat
  pending : Nat
  deployed : Nat
deriving DecidableEq, Repr

/-- `getMigrationStats` (source lines 516-540): read the session's file
rows (an erroring read, oracle `queryFails`, yields `null`) and count them
by conversion status; a session with no rows yields the all-zero
summary. -/
def getMigrationStats (queryFails : Bool) (migrationId : Nat) (db : DB) :
    Option MigrationStats :=
  if queryFails then none
  else
    let files := filesOf db migrationId
    some
      { total := files.length
        success := (files.filter (fun f => f.conversionStatus = ConvStatus.success)).length
        failed := (files.filter (fun f => f.conversionStatus = ConvStatus.failed)).length
        pending := (files.filter (fun f => f.conversionStatus = ConvStatus.pending)).length
        deployed := (files.filter (fun f => f.conversionStatus = ConvStatus.deployed)).length }

/-- The dashboard's mutually exclusive tabs (`Dashboard.tsx`). -/
inductive Tab
  | upload
  | conversion
  | pending
deriving DecidableEq, Repr

/-- The client-side dashboard state the reset handler touches
(`Dashboard.tsx` `useState` cells: active tab, file list, selected file,
conversion results, report); results and report are opaque payloads. -/
structure DashState where
  activeTab : Tab
  files : List FileItem
  selectedFile : Option FileItem
  conversionResults : List String
  report : Option String
deriving DecidableEq, Repr

/-- `handleManualEdit` (`Dashboard.tsx` lines 169-183): with a selected
file, build the updated file, replace the matching entries of the file
list and the selected file by it; without a selection do nothing. -/
def handleManualEdit (newContent : String) (d : DashState) : DashState :=
  match d.selectedFile with
  | none => d
  | some sf =>
    let updatedFile : FileItem := { sf with convertedContent := some newContent }
    { d with
        files := d.files.map (fun f => if f.id = sf.id then updatedFile else f)
        selectedFile := some updatedFile }

/-- Dashboard and migration manager together. -/
structure AppState where
  dash : DashState
  mgr : MgrState
deriving DecidableEq, Repr

/-- `handleResetMigration` (`Dashboard.tsx` lines 247-267): clear the
client-side state (files, conversion results, selected file, report,
active tab back to upload), then call `handleCodeUpload` with the empty
list, discarding its return value. -/
def handleResetMigration (user : Option Nat) (now : Int) (projectName : String)
    (sessionInsertFails : Bool) (fileInsertFails : String → Bool)
    (a : AppState) : AppState :=
  let cleared : DashState :=
    { activeTab := Tab.upload, files := [], selectedFile := none,
      conversionResults := [], report := none }
  let res := handleCodeUpload user now projectName sessionInsertFails fileInsertFails
    [] a.mgr
  { dash := cleared, mgr := res.state }

end Cosmo

namespace Cosmo

/-- Shared helper: the fast path of `getOrCreateMigrationId` — a held
in-memory id is returned unchanged with the state untouched. -/
theorem getOrCreate_of_current (user : Option Nat) (now : Int) (projectName : String)
    (insertFails : Bool) (s : MgrState) (mid : Nat)
    (hcur : s.currentMigrationId = some mid) :
    getOrCreateMigrationId user now projectName insertFails s = (some mid, s) := by
  unfold getOrCreateMigrationId
  rw [hcur]

/-- **C3** — `getOrCreateMigrationId` is idempotent once an in-memory
current session id is held: with `currentMigrationId = some mid` it
returns exactly that id and leaves the whole state (in particular the
backend) untouched, for every user, clock value, project name and
insert-failure oracle — the result does not depend on the backend at all,
so no backend read or write is performed. -/
theorem getOrCreate_fastPath (user : Option Nat) (now : Int) (projectName : String)
    (insertFails : Bool) (s : MgrState) (mid : Nat)
    (hcur : s.currentMigrationId = some mid) :
    getOrCreateMigrationId user now projectName insertFails s = (some mid, s) :=
  getOrCreate_of_current user now projectName insertFails s mid hcur

/-- Witness for C3 at a concrete state holding session id 5. -/
theorem getOrCreate_fastPath_witness :
    getOrCreateMigrationId (some 1) 1000 "Migration_120000" false
      ⟨some 5, ⟨[⟨5, 1, "p", 0⟩], [], 6⟩⟩ = (some 5, ⟨some 5, ⟨[⟨5, 1, "p", 0⟩], [], 6⟩⟩) :=
  getOrCreate_fastPath (some 1) 1000 "Migration_120000" false
    ⟨some 5, ⟨[⟨5, 1, "p", 0⟩], [], 6⟩⟩ 5 rfl

/-- **C2** — `getOrCreateMigrationId` with no held in-memory session id
(and the session insert succeeding): if the most recent backend session of
the last 24 hours has at least one file row, it is returned and set as
current with the backend untouched; if it exists with zero file rows, it
is deleted and exactly one new session row is created; and if no recent
session exists, exactly one new session row is created and its id
returned. -/
theorem getOrCreate_sessionPolicy (uid : Nat) (now : Int) (projectName : String)
    (s : MgrState) (hcur : s.currentMigrationId = none) :
    (∀ m : MigrationRow, recentMigration s.db uid (now - msPerDay) = some m →
      0 < (filesOf s.db m.id).length →
      getOrCreateMigrationId (some uid) now projectName false s =
        (some m.id, { s with currentMigrationId := some m.id })) ∧
    (∀ m : MigrationRow, recentMigration s.db uid (now - msPerDay) = some m →
      (filesOf s.db m.id).length = 0 →
      getOrCreateMigrationId (some uid) now projectName false s =
        (some s.db.nextId,
         { currentMigrationId := some s.db.nextId,
           db := { migrations :=
                     (s.db.migrations.filter (fun m2 => ¬ m2.id = m.id)) ++
                       [⟨s.db.nextId, uid, projectName, now⟩],
                   files := s.db.files,
                   nextId := s.db.nextId + 1 } })) ∧
    (recentMigration s.db uid (now - msPerDay) = none →
      getOrCreateMigrationId (some uid) now projectName false s =
        (some s.db.nextId,
         { currentMigrationId := some s.db.nextId,
           db := { migrations := s.db.migrations ++ [⟨s.db.nextId, uid, projectName, now⟩],
                   files := s.db.files,
                   nextId := s.db.nextId + 1 } })) := by
  refine ⟨?_, ?_, ?_⟩
  · intro m hrec hfiles
    unfold getOrCreateMigrationId
    rw [hcur]
    dsimp only
    rw [hrec]
    dsimp only
    rw [if_pos hfiles]
  · intro m hrec hempty
    unfold getOrCreateMigrationId
    rw [hcur]
    dsimp only
    rw [hrec]
    dsimp only
    rw [if_neg (by omega)]
    unfold startNewMigration
    dsimp only
    rw [if_neg Bool.false_ne_true]
  · intro hrec
    unfold getOrCreateMigrationId
    rw [hcur]
    dsimp only
    rw [hrec]
    unfold startNewMigration
    dsimp only
    rw [if_neg Bool.false_ne_true]

/-- Witness for C2 at a concrete state: no current session, one stale
session older than 24 hours, so a fresh session row with the next id is
created and returned. -/
theorem getOrCreate_sessionPolicy_witness :
    getOrCreateMigrationId (some 1) (2 * msPerDay) "Migration_new" false
      ⟨none, ⟨[⟨0, 1, "old", 0⟩], [], 3⟩⟩ =
      (some 3,
       ⟨some 3, ⟨[⟨0, 1, "old", 0⟩, ⟨3, 1, "Migration_new", 2 * msPerDay⟩], [], 4⟩⟩) :=
  (getOrCreate_sessionPolicy 1 (2 * msPerDay) "Migration_new"
    ⟨none, ⟨[⟨0, 1, "old", 0⟩], [], 3⟩⟩ rfl).2.2 (by decide)

/-- **C4** — `cleanupEmptyMigrations` (backend calls succeeding) touches
neither the file rows nor the in-memory session pointer, and a migration
row survives it exactly when it is not a stale empty session of the
current user: every session with at least one file row, and every session
at most 24 hours old, and every other user's session is kept, while the
current user's sessions older than 24 hours with zero file rows are
deleted.  Backend row ids are assumed pairwise distinct. -/
theorem cleanup_deletesExactlyStaleEmpty (uid : Nat) (now : Int) (s : MgrState)
    (hnodup : (s.db.migrations.map (fun m => m.id)).Nodup) :
    (cleanupEmptyMigrations false false (some uid) now s).db.files = s.db.files ∧
    (cleanupEmptyMigrations false false (some uid) now s).currentMigrationId
      = s.currentMigrationId ∧
    (∀ m : MigrationRow,
      m ∈ (cleanupEmptyMigrations false false (some uid) now s).db.migrations ↔
        m ∈ s.db.migrations ∧
          ¬ (m.userId = uid ∧ m.createdAt < now - msPerDay ∧
              (filesOf s.db m.id).length = 0)) := by
  have hid : ∀ m : MigrationRow, m ∈ s.db.migrations →
      (m.id ∈ staleEmptyIds s.db uid (now - msPerDay) ↔
        (m.userId = uid ∧ m.createdAt < now - msPerDay ∧
          (filesOf s.db m.id).length = 0)) := by
    intro m hm
    unfold staleEmptyIds
    simp only [List.mem_map, List.mem_filter, decide_eq_true_eq]
    constructor
    · rintro ⟨m', ⟨⟨hm', hparts⟩, hempty⟩, hideq⟩
      have : m' = m := List.inj_on_of_nodup_map hnodup hm' hm hideq
      subst this
      exact ⟨hparts.1, hparts.2, hempty⟩
    · rintro ⟨h1, h2, h3⟩
      exact ⟨m, ⟨⟨hm, h1, h2⟩, h3⟩, rfl⟩
  unfold cleanupEmptyMigrations
  rw [if_neg Bool.false_ne_true]
  dsimp only
  by_cases hlen : (staleEmptyIds s.db uid (now - msPerDay)).length > 0
  · rw [if_pos hlen, if_neg Bool.false_ne_true]
    refine ⟨rfl, rfl, ?_⟩
    intro m
    simp only [List.mem_filter, decide_eq_true_eq]
    constructor
    · rintro ⟨hm, hnot⟩
      exact ⟨hm, fun hdel => hnot ((hid m hm).mpr hdel)⟩
    · rintro ⟨hm, hnot⟩
      exact ⟨hm, fun hdel => hnot ((hid m hm).mp hdel)⟩
  · rw [if_neg hlen]
    refine ⟨rfl, rfl, ?_⟩
    intro m
    constructor
    · intro hm
      refine ⟨hm, fun hdel => ?_⟩
      have : m.id ∈ staleEmptyIds s.db uid (now - msPerDay) := (hid m hm).mpr hdel
      have : 0 < (staleEmptyIds s.db uid (now - msPerDay)).length :=
        List.length_pos.mpr (List.ne_nil_of_mem this)
      omega
    · exact fun h => h.1

/-- Shared helper: every row appended by the insertion loop carries the
session id, has a lowercased name outside the initial name set, and the
appended lowercased names are pairwise distinct (a name is remembered as
soon as its row is inserted, so a later file with the same lowercased name
is skipped). -/
theorem insertRows_sound (fails : String → Bool) (mid : Nat) (now : Int) :
    ∀ (batch : List FileItem) (names : List String) (nid : Nat),
      (∀ r ∈ (insertRows fails mid now batch names nid).1, r.migrationId = mid) ∧
      (∀ r ∈ (insertRows fails mid now batch names nid).1, lowerStr r.fileName ∉ names) ∧
      ((insertRows fails mid now batch names nid).1.map fun r => lowerStr r.fileName).Nodup
  | [], names, nid => by simp [insertRows]
  | f :: rest, names, nid => by
    by_cases hmem : lowerStr f.name ∈ names
    · simpa only [insertRows, if_pos hmem] using insertRows_sound fails mid now rest names nid
    · by_cases hfail : fails f.name = true
      · simpa only [insertRows, if_neg hmem, if_pos hfail] using
          insertRows_sound fails mid now rest names nid
      · obtain ⟨ih1, ih2, ih3⟩ :=
          insertRows_sound fails mid now rest (names ++ [lowerStr f.name]) (nid + 1)
        simp only [insertRows, if_neg hmem, if_neg hfail]
        refine ⟨?_, ?_, ?_⟩
        · intro r hr
          rcases List.mem_cons.mp hr with h | h
          · subst h; rfl
          · exact ih1 r h
        · intro r hr
          rcases List.mem_cons.mp hr with h | h
          · subst h; exact hmem
          · intro hc
            exact ih2 r h (List.mem_append_left _ hc)
        · rw [List.map_cons, List.nodup_cons]
          refine ⟨?_, ih3⟩
          intro hc
          rcases List.mem_map.mp hc with ⟨r, hr, heq⟩
          exact ih2 r hr (heq ▸ List.mem_append_right _ (List.mem_singleton_self _))

/-- Shared helper: a lowercased name outside the initial name set that
occurs in the batch, all of whose carriers insert without error, ends up
on exactly one appended row. -/
theorem insertRows_count (fails : String → Bool) (mid : Nat) (now : Int) :
    ∀ (batch : List FileItem) (names : List String) (nid : Nat) (n : String),
      n ∉ names →
      n ∈ batch.map (fun f => lowerStr f.name) →
      (∀ f ∈ batch, lowerStr f.name = n → fails f.name = false) →
      ((insertRows fails mid now batch names nid).1.map fun r => lowerStr r.fileName).count n
        = 1
  | [], names, nid, n => by
    intro _ hbatch _
    simp at hbatch
  | f :: rest, names, nid, n => by
    intro hn hbatch hok
    simp only [List.map_cons, List.mem_cons] at hbatch
    by_cases hmem : lowerStr f.name ∈ names
    · have hne : ¬ n = lowerStr f.name := fun h => hn (h ▸ hmem)
      have hbatch' : n ∈ rest.map (fun f => lowerStr f.name) := by
        rcases hbatch with h | h
        · exact absurd h hne
        · exact h
      simp only [insertRows, if_pos hmem]
      exact insertRows_count fails mid now rest names nid n hn hbatch'
        (fun g hg => hok g (List.mem_cons_of_mem f hg))
    · by_cases hfail : fails f.name = true
      · have hne : ¬ n = lowerStr f.name := by
          intro h
          have := hok f (List.mem_cons_self f rest) h.symm
          rw [this] at hfail
          exact Bool.false_ne_true hfail
        have hbatch' : n ∈ rest.map (fun f => lowerStr f.name) := by
          rcases hbatch with h | h
          · exact absurd h hne
          · exact h
        simp only [insertRows, if_neg hmem, if_pos hfail]
        exact insertRows_count fails mid now rest names nid n hn hbatch'
          (fun g hg => hok g (List.mem_cons_of_mem f hg))
      · simp only [insertRows, if_neg hmem, if_neg hfail]
        by_cases heq : n = lowerStr f.name
        · -- the first carrier of `n` is inserted here; the tail adds no more
          have hsound :=
            (insertRows_sound fails mid now rest (names ++ [lowerStr f.name]) (nid + 1)).2.1
          have hzero :
              n ∉ ((insertRows fails mid now rest (names ++ [lowerStr f.name])
                      (nid + 1)).1.map fun r => lowerStr r.fileName) := by
            intro hc
            rcases List.mem_map.mp hc with ⟨r, hr, hreq⟩
            exact hsound r hr
              (hreq ▸ heq ▸ List.mem_append_right _ (List.mem_singleton_self _))
          rw [List.map_cons, List.count_cons]
          rw [List.count_eq_zero.mpr hzero]
          have : ((lowerStr (mkRow mid now nid f).fileName == n) = true) := by
            rw [beq_iff_eq]
            exact heq.symm
          rw [this]
          simp
        · have hbatch' : n ∈ rest.map (fun f => lowerStr f.name) := by
            rcases hbatch with h | h
            · exact absurd h heq
            · exact h
          have hn' : n ∉ names ++ [lowerStr f.name] := by
            intro hc
            rcases List.mem_append.mp hc with h | h
            · exact hn h
            · exact heq (List.mem_singleton.mp h)
          rw [List.map_cons, List.count_cons]
          have : ((lowerStr (mkRow mid now nid f).fileName == n) = false) := by
            rw [beq_eq_false_iff_ne]
            exact fun h => heq h.symm
          rw [this]
          simp only [Bool.false_eq_true, if_false, Nat.add_zero]
          rw [insertRows_count fails mid now rest (names ++ [lowerStr f.name]) (nid + 1) n
            hn' hbatch' (fun g hg => hok g (List.mem_cons_of_mem f hg))]

/-- Witness for C4: one stale empty session (deleted), one stale session
with a file (kept), one fresh empty session (kept). -/
theorem cleanup_deletesExactlyStaleEmpty_witness :
    ((cleanupEmptyMigrations false false (some 1) (2 * msPerDay)
        ⟨some 9, ⟨[⟨0, 1, "stale-empty", 0⟩, ⟨1, 1, "stale-with-file", 0⟩,
                   ⟨2, 1, "fresh-empty", 2 * msPerDay⟩],
                  [⟨10, 1, "a.sql", "a.sql", FileType.table, "c", ConvStatus.pending,
                    none, none, none, none, none, none, 0⟩], 11⟩⟩).db.files =
      [⟨10, 1, "a.sql", "a.sql", FileType.table, "c", ConvStatus.pending,
        none, none, none, none, none, none, 0⟩]) ∧
    ((cleanupEmptyMigrations false false (some 1) (2 * msPerDay)
        ⟨some 9, ⟨[⟨0, 1, "stale-empty", 0⟩, ⟨1, 1, "stale-with-file", 0⟩,
                   ⟨2, 1, "fresh-empty", 2 * msPerDay⟩],
                  [⟨10, 1, "a.sql", "a.sql", FileType.table, "c", ConvStatus.pending,
                    none, none, none, none, none, none, 0⟩], 11⟩⟩).currentMigrationId = some 9) ∧
    ¬ (⟨0, 1, "stale-empty", 0⟩ : MigrationRow) ∈
        (cleanupEmptyMigrations false false (some 1) (2 * msPerDay)
          ⟨some 9, ⟨[⟨0, 1, "stale-empty", 0⟩, ⟨1, 1, "stale-with-file", 0⟩,
                     ⟨2, 1, "fresh-empty", 2 * msPerDay⟩],
                    [⟨10, 1, "a.sql", "a.sql", FileType.table, "c", ConvStatus.pending,
                      none, none, none, none, none, none, 0⟩], 11⟩⟩).db.migrations := by
  have h := cleanup_deletesExactlyStaleEmpty 1 (2 * msPerDay)
    ⟨some 9, ⟨[⟨0, 1, "stale-empty", 0⟩, ⟨1, 1, "stale-with-file", 0⟩,
               ⟨2, 1, "fresh-empty", 2 * msPerDay⟩],
              [⟨10, 1, "a.sql", "a.sql", FileType.table, "c", ConvStatus.pending,
                none, none, none, none, none, none, 0⟩], 11⟩⟩ (by decide)
  refine ⟨h.1, h.2.1, fun hmem => ?_⟩
  have := (h.2.2 ⟨0, 1, "stale-empty", 0⟩).mp hmem
  exact this.2 (by decide)

/-- **C1** — `handleCodeUpload` into an existing session: the backend only
gains rows (every pre-existing file row is left unchanged, the migrations
table untouched), no appended row reuses a lowercased file name already
present among the session's file rows, the appended lowercased names are
pairwise distinct (so within one batch a later `Orders.sql` after
`orders.sql` adds no second row), and a genuinely new batch name whose
carriers insert without error yields exactly one row. -/
theorem upload_dedup (uid : Nat) (now : Int) (projectName : String)
    (sessionInsertFails : Bool) (fileInsertFails : String → Bool)
    (batch : List UploadedFile) (s : MgrState) (mid : Nat)
    (hcur : s.currentMigrationId = some mid) :
    ∃ rows : List FileRow,
      (handleCodeUpload (some uid) now projectName sessionInsertFails fileInsertFails
          batch s).state.db.files = s.db.files ++ rows ∧
      (handleCodeUpload (some uid) now projectName sessionInsertFails fileInsertFails
          batch s).state.db.migrations = s.db.migrations ∧
      (handleCodeUpload (some uid) now projectName sessionInsertFails fileInsertFails
          batch s).state.currentMigrationId = some mid ∧
      (∀ r ∈ rows, r.migrationId = mid) ∧
      (∀ r ∈ rows,
        lowerStr r.fileName ∉ (filesOf s.db mid).map (fun r2 => lowerStr r2.fileName)) ∧
      (rows.map fun r => lowerStr r.fileName).Nodup ∧
      (∀ n : String,
        n ∉ (filesOf s.db mid).map (fun r2 => lowerStr r2.fileName) →
        n ∈ batch.map (fun f => lowerStr f.name) →
        (∀ f ∈ batch, lowerStr f.name = n → fileInsertFails f.name = false) →
        ((rows.map fun r => lowerStr r.fileName).count n = 1)) := by
  have hfast := getOrCreate_of_current (some uid) now projectName sessionInsertFails s mid hcur
  unfold handleCodeUpload
  dsimp only
  rw [hfast]
  dsimp only
  obtain ⟨h1, h2, h3⟩ := insertRows_sound fileInsertFails mid now (batch.map mkFileItem)
    ((filesOf s.db mid).map fun r => lowerStr r.fileName) s.db.nextId
  refine ⟨_, rfl, rfl, hcur, h1, h2, h3, ?_⟩
  intro n hnot hbatch hok
  refine insertRows_count fileInsertFails mid now (batch.map mkFileItem)
    ((filesOf s.db mid).map fun r => lowerStr r.fileName) s.db.nextId n hnot ?_ ?_
  · simpa [List.map_map, Function.comp, mkFileItem] using hbatch
  · intro g hg
    rcases List.mem_map.mp hg with ⟨f, hf, rfl⟩
    exact hok f hf

/-- Witness for C1: session 0 already holds `a.sql`; the batch uploads
`orders.sql`, `Orders.sql` and `A.SQL`. -/
theorem upload_dedup_witness :
    ∃ rows : List FileRow,
      (handleCodeUpload (some 1) 0 "p" false (fun _ => false)
          [⟨"u1", "orders.sql", FileType.table, "x"⟩,
           ⟨"u2", "Orders.sql", FileType.table, "y"⟩,
           ⟨"u3", "A.SQL", FileType.table, "z"⟩]
          ⟨some 0, ⟨[⟨0, 1, "p", 0⟩],
                    [⟨10, 0, "a.sql", "a.sql", FileType.table, "c", ConvStatus.pending,
                      none, none, none, none, none, none, 0⟩], 11⟩⟩).state.db.files =
        [⟨10, 0, "a.sql", "a.sql", FileType.table, "c", ConvStatus.pending,
          none, none, none, none, none, none, 0⟩] ++ rows ∧
      (handleCodeUpload (some 1) 0 "p" false (fun _ => false)
          [⟨"u1", "orders.sql", FileType.table, "x"⟩,
           ⟨"u2", "Orders.sql", FileType.table, "y"⟩,
           ⟨"u3", "A.SQL", FileType.table, "z"⟩]
          ⟨some 0, ⟨[⟨0, 1, "p", 0⟩],
                    [⟨10, 0, "a.sql", "a.sql", FileType.table, "c", ConvStatus.pending,
                      none, none, none, none, none, none, 0⟩], 11⟩⟩).state.db.migrations =
        [⟨0, 1, "p", 0⟩] ∧
      (handleCodeUpload (some 1) 0 "p" false (fun _ => false)
          [⟨"u1", "orders.sql", FileType.table, "x"⟩,
           ⟨"u2", "Orders.sql", FileType.table, "y"⟩,
           ⟨"u3", "A.SQL", FileType.table, "z"⟩]
          ⟨some 0, ⟨[⟨0, 1, "p", 0⟩],
                    [⟨10, 0, "a.sql", "a.sql", FileType.table, "c", ConvStatus.pending,
                      none, none, none, none, none, none, 0⟩], 11⟩⟩).state.currentMigrationId =
        some 0 ∧
      (∀ r ∈ rows, r.migrationId = 0) ∧
      (∀ r ∈ rows,
        lowerStr r.fileName ∉
          (filesOf ⟨[⟨0, 1, "p", 0⟩],
                    [⟨10, 0, "a.sql", "a.sql", FileType.table, "c", ConvStatus.pending,
                      none, none, none, none, none, none, 0⟩], 11⟩ 0).map
            (fun r2 => lowerStr r2.fileName)) ∧
      (rows.map fun r => lowerStr r.fileName).Nodup ∧
      (∀ n : String,
        n ∉ (filesOf ⟨[⟨0, 1, "p", 0⟩],
                      [⟨10, 0, "a.sql", "a.sql", FileType.table, "c", ConvStatus.pending,
                        none, none, none, none, none, none, 0⟩], 11⟩ 0).map
              (fun r2 => lowerStr r2.fileName) →
        n ∈ [(⟨"u1", "orders.sql", FileType.table, "x"⟩ : UploadedFile),
             ⟨"u2", "Orders.sql", FileType.table, "y"⟩,
             ⟨"u3", "A.SQL", FileType.table, "z"⟩].map (fun f => lowerStr f.name) →
        (∀ f ∈ [(⟨"u1", "orders.sql", FileType.table, "x"⟩ : UploadedFile),
                ⟨"u2", "Orders.sql", FileType.table, "y"⟩,
                ⟨"u3", "A.SQL", FileType.table, "z"⟩],
          lowerStr f.name = n → (fun _ : String => false) f.name = false) →
        ((rows.map fun r => lowerStr r.fileName).count n = 1)) :=
  upload_dedup 1 0 "p" false (fun _ => false)
    [⟨"u1", "orders.sql", FileType.table, "x"⟩,
     ⟨"u2", "Orders.sql", FileType.table, "y"⟩,
     ⟨"u3", "A.SQL", FileType.table, "z"⟩]
    ⟨some 0, ⟨[⟨0, 1, "p", 0⟩],
              [⟨10, 0, "a.sql", "a.sql", FileType.table, "c", ConvStatus.pending,
                none, none, none, none, none, none, 0⟩], 11⟩⟩ 0 rfl

/-- **C5** — with a user and an obtainable session id, `handleCodeUpload`
returns the full batch mapped to `FileItem`s whose status is forced to
`pending` and whose auxiliary fields are cleared, and fires the success
toast — for every per-file insert-failure oracle, i.e. regardless of how
many of the row insertions fail. -/
theorem upload_reportsSuccess (uid : Nat) (now : Int) (projectName : String)
    (sessionInsertFails : Bool) (fileInsertFails : String → Bool)
    (uploadedFiles : List UploadedFile) (s : MgrState) (mid : Nat)
    (hsession :
      (getOrCreateMigrationId (some uid) now projectName sessionInsertFails s).1 = some mid) :
    (handleCodeUpload (some uid) now projectName sessionInsertFails fileInsertFails
        uploadedFiles s).files = uploadedFiles.map mkFileItem ∧
    (handleCodeUpload (some uid) now projectName sessionInsertFails fileInsertFails
        uploadedFiles s).outcome = UploadOutcome.uploadedToast uploadedFiles.length ∧
    ∀ f ∈ (handleCodeUpload (some uid) now projectName sessionInsertFails fileInsertFails
        uploadedFiles s).files,
      f.conversionStatus = ConvStatus.pending ∧ f.convertedContent = none ∧
        f.errorMessage = none ∧ f.dataTypeMapping = some [] ∧ f.issues = some [] ∧
        f.performanceMetrics = none := by
  unfold handleCodeUpload
  dsimp only
  rw [hsession]
  dsimp only
  refine ⟨rfl, by simp, ?_⟩
  intro f hf
  rcases List.mem_map.mp hf with ⟨g, _, rfl⟩
  simp [mkFileItem]

/-- Witness for C5: a single-file batch whose insert fails (the oracle
always errors) still yields the full mapped list and the success toast. -/
theorem upload_reportsSuccess_witness :
    (handleCodeUpload (some 1) 0 "p" false (fun _ => true)
        [⟨"u1", "orders.sql", FileType.table, "x"⟩]
        ⟨some 0, ⟨[⟨0, 1, "p", 0⟩], [], 11⟩⟩).files =
      [⟨"u1", "orders.sql", FileType.table, "x"⟩].map mkFileItem ∧
    (handleCodeUpload (some 1) 0 "p" false (fun _ => true)
        [⟨"u1", "orders.sql", FileType.table, "x"⟩]
        ⟨some 0, ⟨[⟨0, 1, "p", 0⟩], [], 11⟩⟩).outcome = UploadOutcome.uploadedToast 1 ∧
    ∀ f ∈ (handleCodeUpload (some 1) 0 "p" false (fun _ => true)
        [⟨"u1", "orders.sql", FileType.table, "x"⟩]
        ⟨some 0, ⟨[⟨0, 1, "p", 0⟩], [], 11⟩⟩).files,
      f.conversionStatus = ConvStatus.pending ∧ f.convertedContent = none ∧
        f.errorMessage = none ∧ f.dataTypeMapping = some [] ∧ f.issues = some [] ∧
        f.performanceMetrics = none :=
  upload_reportsSuccess 1 0 "p" false (fun _ => true)
    [⟨"u1", "orders.sql", FileType.table, "x"⟩]
    ⟨some 0, ⟨[⟨0, 1, "p", 0⟩], [], 11⟩⟩ 0 rfl

/-- Shared helper: the incrementally-built payload equals the record of
its arguments. -/
theorem buildUpdateData_eq (status : ConvStatus) (now : Int)
    (cc em : Option String) (dtm : Option (List String)) (pm : Option String)
    (iss : Option (List Issue)) :
    buildUpdateData status now cc em dtm pm iss =
      { conversion_status := status, updated_at := now, converted_content := cc,
        error_message := em, data_type_mapping := dtm, performance_metrics := pm,
        issues := iss } := by
  unfold buildUpdateData
  cases cc <;> cases em <;> cases dtm <;> cases pm <;> cases iss <;> rfl

/-- **C6** — `updateFileStatus` performs a partial update: the payload
always carries the status and the fresh timestamp, carries each optional
column exactly when the corresponding argument was provided, and applying
it to a row overwrites exactly the provided columns — an omitted optional
argument leaves the stored value of its column unchanged. -/
theorem updateFileStatus_partialUpdate (fileId : Nat) (status : ConvStatus) (now : Int)
    (cc em : Option String) (dtm : Option (List String)) (pm : Option String)
    (iss : Option (List Issue)) (db : DB) :
    (updateFileStatus false fileId status now cc em dtm pm iss db).1 = true ∧
    (updateFileStatus false fileId status now cc em dtm pm iss db).2.files
      = db.files.map (fun r => if r.id = fileId then
          applyUpdate (buildUpdateData status now cc em dtm pm iss) r else r) ∧
    (buildUpdateData status now cc em dtm pm iss).conversion_status = status ∧
    (buildUpdateData status now cc em dtm pm iss).updated_at = now ∧
    (buildUpdateData status now cc em dtm pm iss).converted_content = cc ∧
    (buildUpdateData status now cc em dtm pm iss).error_message = em ∧
    (buildUpdateData status now cc em dtm pm iss).data_type_mapping = dtm ∧
    (buildUpdateData status now cc em dtm pm iss).performance_metrics = pm ∧
    (buildUpdateData status now cc em dtm pm iss).issues = iss ∧
    (∀ r : FileRow,
      (applyUpdate (buildUpdateData status now cc em dtm pm iss) r).conversionStatus
          = status ∧
      (applyUpdate (buildUpdateData status now cc em dtm pm iss) r).updatedAt = now ∧
      (cc = none →
        (applyUpdate (buildUpdateData status now cc em dtm pm iss) r).convertedContent
          = r.convertedContent) ∧
      (em = none →
        (applyUpdate (buildUpdateData status now cc em dtm pm iss) r).errorMessage
          = r.errorMessage) ∧
      (dtm = none →
        (applyUpdate (buildUpdateData status now cc em dtm pm iss) r).dataTypeMapping
          = r.dataTypeMapping) ∧
      (pm = none →
        (applyUpdate (buildUpdateData status now cc em dtm pm iss) r).performanceMetrics
          = r.performanceMetrics) ∧
      (iss = none →
        (applyUpdate (buildUpdateData status now cc em dtm pm iss) r).issues
          = r.issues) ∧
      (∀ v, cc = some v →
        (applyUpdate (buildUpdateData status now cc em dtm pm iss) r).convertedContent
          = some v) ∧
      (∀ v, em = some v →
        (applyUpdate (buildUpdateData status now cc em dtm pm iss) r).errorMessage
          = some v) ∧
      (∀ v, dtm = some v →
        (applyUpdate (buildUpdateData status now cc em dtm pm iss) r).dataTypeMapping
          = some v) ∧
      (∀ v, pm = some v →
        (applyUpdate (buildUpdateData status now cc em dtm pm iss) r).performanceMetrics
          = some v) ∧
      (∀ v, iss = some v →
        (applyUpdate (buildUpdateData status now cc em dtm pm iss) r).issues
          = some v)) := by
  rw [buildUpdateData_eq]
  refine ⟨?_, ?_, rfl, rfl, rfl, rfl, rfl, rfl, rfl, ?_⟩
  · unfold updateFileStatus
    rw [buildUpdateData_eq, if_neg Bool.false_ne_true]
  · unfold updateFileStatus
    rw [buildUpdateData_eq, if_neg Bool.false_ne_true]
  · intro r
    refine ⟨rfl, rfl, ?_, ?_, ?_, ?_, ?_, ?_, ?_, ?_, ?_, ?_⟩ <;>
      first
        | (intro h; subst h; rfl)
        | (intro v h; subst h; rfl)

/-- Witness for C6: a mixed call (content provided, the rest omitted) on a
concrete row keeps the omitted columns and overwrites the provided one. -/
theorem updateFileStatus_partialUpdate_witness :
    (applyUpdate (buildUpdateData ConvStatus.success 7 (some "new sql") none none none none)
        ⟨3, 0, "a.sql", "a.sql", FileType.table, "c", ConvStatus.pending,
         some "old sql", some "old err", some ["m"], some "pm", some [⟨"i1"⟩],
         none, 1⟩).errorMessage = some "old err" ∧
    (applyUpdate (buildUpdateData ConvStatus.success 7 (some "new sql") none none none none)
        ⟨3, 0, "a.sql", "a.sql", FileType.table, "c", ConvStatus.pending,
         some "old sql", some "old err", some ["m"], some "pm", some [⟨"i1"⟩],
         none, 1⟩).convertedContent = some "new sql" ∧
    (applyUpdate (buildUpdateData ConvStatus.success 7 (some "new sql") none none none none)
        ⟨3, 0, "a.sql", "a.sql", FileType.table, "c", ConvStatus.pending,
         some "old sql", some "old err", some ["m"], some "pm", some [⟨"i1"⟩],
         none, 1⟩).conversionStatus = ConvStatus.success := by
  have h := (updateFileStatus_partialUpdate 3 ConvStatus.success 7 (some "new sql") none
    none none none ⟨[], [], 0⟩).2.2.2.2.2.2.2.2.2
    ⟨3, 0, "a.sql", "a.sql", FileType.table, "c", ConvStatus.pending,
     some "old sql", some "old err", some ["m"], some "pm", some [⟨"i1"⟩], none, 1⟩
  exact ⟨h.2.2.2.1 rfl, h.2.2.2.2.2.2.2.1 "new sql" rfl, h.1⟩

/-- **C7** — `deleteMigration` deletes the session's file rows first and
the session row second: a failing file deletion returns `false` with
nothing changed; a failing session deletion returns `false` with the file
rows already gone, the migrations table and the in-memory pointer
unchanged; full success returns `true` with both deleted and clears the
in-memory pointer exactly when the deleted id is the current one. -/
theorem deleteMigration_spec (migrationId : Nat) (s : MgrState) :
    (∀ migDelFails : Bool, deleteMigration true migDelFails migrationId s = (false, s)) ∧
    (deleteMigration false true migrationId s =
      (false, { s with db := { s.db with
        files := s.db.files.filter (fun r => ¬ r.migrationId = migrationId) } })) ∧
    (deleteMigration false false migrationId s).1 = true ∧
    (deleteMigration false false migrationId s).2.db.files
      = s.db.files.filter (fun r => ¬ r.migrationId = migrationId) ∧
    (deleteMigration false false migrationId s).2.db.migrations
      = s.db.migrations.filter (fun m => ¬ m.id = migrationId) ∧
    (deleteMigration false false migrationId s).2.currentMigrationId
      = (if s.currentMigrationId = some migrationId then none
         else s.currentMigrationId) := by
  by_cases hcur : s.currentMigrationId = some migrationId
  · refine ⟨fun m => ?_, ?_, ?_, ?_, ?_, ?_⟩ <;> simp [deleteMigration, hcur]
  · refine ⟨fun m => ?_, ?_, ?_, ?_, ?_, ?_⟩ <;> simp [deleteMigration, hcur]

/-- Shared helper: a list of file rows is partitioned by the four
conversion statuses. -/
theorem length_statusPartition :
    ∀ l : List FileRow,
      l.length =
        (l.filter (fun f => f.conversionStatus = ConvStatus.success)).length +
        (l.filter (fun f => f.conversionStatus = ConvStatus.failed)).length +
        (l.filter (fun f => f.conversionStatus = ConvStatus.pending)).length +
        (l.filter (fun f => f.conversionStatus = ConvStatus.deployed)).length
  | [] => rfl
  | r :: rest => by
    have ih := length_statusPartition rest
    cases h : r.conversionStatus <;> simp [List.filter_cons, h] <;> omega

/-- **C10** — with the read succeeding, `getMigrationStats` returns a
summary (never `null`) whose `total` equals
`success + failed + pending + deployed`, and for a session with zero file
rows that summary is all-zero. -/
theorem getMigrationStats_partition (migrationId : Nat) (db : DB) :
    ∃ st : MigrationStats,
      getMigrationStats false migrationId db = some st ∧
      st.total = st.success + st.failed + st.pending + st.deployed ∧
      (filesOf db migrationId = [] → st = ⟨0, 0, 0, 0, 0⟩) := by
  refine ⟨⟨(filesOf db migrationId).length,
           ((filesOf db migrationId).filter
             (fun f => f.conversionStatus = ConvStatus.success)).length,
           ((filesOf db migrationId).filter
             (fun f => f.conversionStatus = ConvStatus.failed)).length,
           ((filesOf db migrationId).filter
             (fun f => f.conversionStatus = ConvStatus.pending)).length,
           ((filesOf db migrationId).filter
             (fun f => f.conversionStatus = ConvStatus.deployed)).length⟩, ?_, ?_, ?_⟩
  · unfold getMigrationStats
    rw [if_neg Bool.false_ne_true]
  · exact length_statusPartition (filesOf db migrationId)
  · intro h
    simp only [h]
    rfl

/-- Witness for C10: a session with two files (one success, one pending)
and a session with no files. -/
theorem getMigrationStats_partition_witness :
    (∃ st : MigrationStats,
      getMigrationStats false 0
          ⟨[], [⟨1, 0, "a.sql", "a.sql", FileType.table, "c", ConvStatus.success,
                 none, none, none, none, none, none, 0⟩,
                ⟨2, 0, "b.sql", "b.sql", FileType.table, "c", ConvStatus.pending,
                 none, none, none, none, none, none, 0⟩], 3⟩ = some st ∧
      st.total = st.success + st.failed + st.pending + st.deployed ∧
      (filesOf ⟨[], [⟨1, 0, "a.sql", "a.sql", FileType.table, "c", ConvStatus.success,
                      none, none, none, none, none, none, 0⟩,
                     ⟨2, 0, "b.sql", "b.sql", FileType.table, "c", ConvStatus.pending,
                      none, none, none, none, none, none, 0⟩], 3⟩ 0 = [] →
        st = ⟨0, 0, 0, 0, 0⟩)) ∧
    getMigrationStats false 9 ⟨[], [], 0⟩ = some ⟨0, 0, 0, 0, 0⟩ := by
  constructor
  · exact getMigrationStats_partition 0
      ⟨[], [⟨1, 0, "a.sql", "a.sql", FileType.table, "c", ConvStatus.success,
             none, none, none, none, none, none, 0⟩,
            ⟨2, 0, "b.sql", "b.sql", FileType.table, "c", ConvStatus.pending,
             none, none, none, none, none, none, 0⟩], 3⟩
  · obtain ⟨st, h1, _, h3⟩ := getMigrationStats_partition 9 ⟨[], [], 0⟩
    rw [h1, h3 rfl]

/-- **C9** — `handleManualEdit` with a selected file: afterwards the
selected-file cell holds the updated file, every file-list entry with the
selected id equals that same updated file (so the two mirrors hold
identical converted content and never diverge), and if the selected file
was in the list the updated file is in the new list. -/
theorem manualEdit_lockstep (newContent : String) (d : DashState) (sf : FileItem)
    (hsel : d.selectedFile = some sf) :
    (handleManualEdit newContent d).selectedFile
        = some { sf with convertedContent := some newContent } ∧
    (∀ f ∈ (handleManualEdit newContent d).files,
      f.id = sf.id → f = { sf with convertedContent := some newContent }) ∧
    (sf ∈ d.files →
      ({ sf with convertedContent := some newContent } : FileItem)
        ∈ (handleManualEdit newContent d).files) ∧
    (∀ f ∈ (handleManualEdit newContent d).files, f.id = sf.id →
      ∀ g, (handleManualEdit newContent d).selectedFile = some g →
        f.convertedContent = g.convertedContent) := by
  unfold handleManualEdit
  rw [hsel]
  dsimp only
  refine ⟨rfl, ?_, ?_, ?_⟩
  · intro f hf hid
    rcases List.mem_map.mp hf with ⟨g, _, rfl⟩
    by_cases h : g.id = sf.id
    · rw [if_pos h]
    · rw [if_neg h] at hid ⊢
      exact absurd hid h
  · intro hmem
    refine List.mem_map.mpr ⟨sf, hmem, ?_⟩
    rw [if_pos rfl]
  · intro f hf hid g hg
    have hg' : g = { sf with convertedContent := some newContent } := by
      injection hg with h
      exact h.symm
    rcases List.mem_map.mp hf with ⟨g2, _, rfl⟩
    by_cases h : g2.id = sf.id
    · rw [if_pos h, hg']
    · rw [if_neg h] at hid
      exact absurd hid h

/-- Witness for C9: editing the single selected file of a one-file list
updates both mirrors to the same converted content. -/
theorem manualEdit_lockstep_witness :
    (handleManualEdit "select 1"
        ⟨Tab.conversion,
         [⟨"u1", "orders.sql", "orders.sql", FileType.table, "c", ConvStatus.success,
           some "old", none, some [], some [], none⟩],
         some ⟨"u1", "orders.sql", "orders.sql", FileType.table, "c", ConvStatus.success,
           some "old", none, some [], some [], none⟩, [], none⟩).selectedFile
      = some ⟨"u1", "orders.sql", "orders.sql", FileType.table, "c", ConvStatus.success,
          some "select 1", none, some [], some [], none⟩ ∧
    (⟨"u1", "orders.sql", "orders.sql", FileType.table, "c", ConvStatus.success,
       some "select 1", none, some [], some [], none⟩ : FileItem)
      ∈ (handleManualEdit "select 1"
          ⟨Tab.conversion,
           [⟨"u1", "orders.sql", "orders.sql", FileType.table, "c", ConvStatus.success,
             some "old", none, some [], some [], none⟩],
           some ⟨"u1", "orders.sql", "orders.sql", FileType.table, "c", ConvStatus.success,
             some "old", none, some [], some [], none⟩, [], none⟩).files := by
  have h := manualEdit_lockstep "select 1"
    ⟨Tab.conversion,
     [⟨"u1", "orders.sql", "orders.sql", FileType.table, "c", ConvStatus.success,
       some "old", none, some [], some [], none⟩],
     some ⟨"u1", "orders.sql", "orders.sql", FileType.table, "c", ConvStatus.success,
       some "old", none, some [], some [], none⟩, [], none⟩
    ⟨"u1", "orders.sql", "orders.sql", FileType.table, "c", ConvStatus.success,
     some "old", none, some [], some [], none⟩ rfl
  exact ⟨h.1, h.2.2.1 (by decide)⟩

/-- **C8** — the reset handler clears all client-side state (first
conjunct, for every input), but the empty-list upload it performs does
NOT force a fresh migration session: at a state holding a current session
id (the normal state after any upload), the held id is returned by the
fast path, so afterwards the in-memory pointer still holds the old
session and the migrations table has gained no row — contradicting the
claimed "forces the creation of a fresh migration session" (and the
source's own comment "This will start a new migration session"). -/
theorem reset_keepsHeldSession :
    (∀ (user : Option Nat) (now : Int) (projectName : String) (sessionInsertFails : Bool)
        (fileInsertFails : String → Bool) (a : AppState),
      (handleResetMigration user now projectName sessionInsertFails fileInsertFails a).dash
        = ⟨Tab.upload, [], none, [], none⟩) ∧
    (handleResetMigration (some 1) (2 * msPerDay) "p" false (fun _ => false)
        ⟨⟨Tab.conversion, [], none, [], none⟩,
         ⟨some 0,
          ⟨[⟨0, 1, "p", 0⟩],
           [⟨10, 0, "a.sql", "a.sql", FileType.table, "c", ConvStatus.pending,
             none, none, none, none, none, none, 0⟩], 11⟩⟩⟩).mgr.currentMigrationId
      = some 0 ∧
    (handleResetMigration (some 1) (2 * msPerDay) "p" false (fun _ => false)
        ⟨⟨Tab.conversion, [], none, [], none⟩,
         ⟨some 0,
          ⟨[⟨0, 1, "p", 0⟩],
           [⟨10, 0, "a.sql", "a.sql", FileType.table, "c", ConvStatus.pending,
             none, none, none, none, none, none, 0⟩], 11⟩⟩⟩).mgr.db.migrations
      = [⟨0, 1, "p", 0⟩] ∧
    (handleResetMigration (some 1) (2 * msPerDay) "p" false (fun _ => false)
        ⟨⟨Tab.conversion, [], none, [], none⟩,
         ⟨some 0,
          ⟨[⟨0, 1, "p", 0⟩],
           [⟨10, 0, "a.sql", "a.sql", FileType.table, "c", ConvStatus.pending,
             none, none, none, none, none, none, 0⟩], 11⟩⟩⟩).mgr.db.files
      = [⟨10, 0, "a.sql", "a.sql", FileType.table, "c", ConvStatus.pending,
          none, none, none, none, none, none, 0⟩] := by
  exact ⟨fun _ _ _ _ _ _ => rfl, by decide, by decide, by decide⟩

end Cosmo
